import Mathlib

/-!
Verification of the checkpoint subsystem of vmTUI
(`vm_manager/services/libvirt_service.py`, checkpoint operations, plus the
active-checkpoint guard of `vm_manager/ui/widgets/checkpoint_dialog.py`).

The embedding models the filesystem as an association list from absolute
paths (lists of components) to file contents, and the libvirt domain store
as an association list from VM names to domain records.  A domain record
carries the persistent (next-boot) primary-disk path, the live primary-disk
path, and whether the domain is running; `XMLDesc` with the
`VIR_DOMAIN_XML_INACTIVE` flag reads the persistent path, `XMLDesc()`
without flags reads the live path of a running domain and the persistent
path of a shut-off one.  Timestamps are abstracted to a natural-number
clock rendered to strings; `glob` over `*.json` is modelled as a suffix
match on the final path component.  The I/O faults the verified properties
are about are made explicit: the disk-copy steps take a boolean outcome
(`shutil.copy2` raising on failure, possibly leaving a truncated
destination), and `defineXML` takes an outcome that is success, a `None`
return, or a raised `libvirtError`.
-/

namespace VmTUI

/-- An absolute filesystem path, as its list of components. -/
abbrev FilePath := List String

/-- Contents of a file: raw disk-image bytes, or a parsed JSON metadata
object (a key/value record).  A `.json` file holding `diskBytes` models an
unparsable metadata file. -/
inductive FileData where
  | diskBytes (content : String)
  | metaJson (fields : List (String × String))
deriving DecidableEq, Repr

/-- The filesystem: an association list from paths to file contents.
Well-formed states have pairwise-distinct paths. -/
abbrev Fs := List (FilePath × FileData)

def fsLookup : Fs → FilePath → Option FileData
  | [], _ => none
  | (q, d) :: rest, p => if p = q then some d else fsLookup rest p

def fsExists (fs : Fs) (p : FilePath) : Bool :=
  (fsLookup fs p).isSome

/-- Write (create or overwrite) the file at `p`. -/
def fsWrite : Fs → FilePath → FileData → Fs
  | [], p, d => [(p, d)]
  | (q, e) :: rest, p, d => if p = q then (p, d) :: rest else (q, e) :: fsWrite rest p d

/-- Remove the file at `p` (no-op when absent). -/
def fsRemove : Fs → FilePath → Fs
  | [], _ => []
  | (q, e) :: rest, p => if p = q then fsRemove rest p else (q, e) :: fsRemove rest p

/-- A libvirt domain, restricted to what the checkpoint subsystem reads:
the primary disk `<source file=...>` of the persistent (inactive)
configuration, the one of the live configuration, and the running flag.
`none` models a configuration without a `<disk device='disk'>` source
element. -/
structure Domain where
  persistentDisk : Option FilePath
  liveDisk : Option FilePath
  running : Bool
deriving DecidableEq, Repr

/-- Model of `domain.XMLDesc(flags)`, projected to the primary disk source path.
With `VIR_DOMAIN_XML_INACTIVE` it reports the persistent configuration;
with no flags it reports the live configuration of a running domain and
the persistent configuration of a shut-off one. -/
def xmlDescDisk (d : Domain) (inactive : Bool) : Option FilePath :=
  if inactive then d.persistentDisk
  else if d.running then d.liveDisk
  else d.persistentDisk

/-- The world state: files, existing directories, defined domains, and the
current time (abstract clock behind `datetime.now()`). -/
structure Sys where
  fs : Fs
  dirs : List FilePath
  doms : List (String × Domain)
  now : Nat
deriving DecidableEq, Repr

def domLookup : List (String × Domain) → String → Option Domain
  | [], _ => none
  | (n, d) :: rest, vm => if vm = n then some d else domLookup rest vm

/-- Model of `conn.defineXML`: register (or redefine) the persistent configuration
of the named domain. -/
def domDefine : List (String × Domain) → String → Domain → List (String × Domain)
  | [], vm, d => [(vm, d)]
  | (n, e) :: rest, vm, d => if vm = n then (vm, d) :: rest else (n, e) :: domDefine rest vm d

def dirExists (s : Sys) (p : FilePath) : Bool :=
  s.dirs.contains p

/-- Model of `Path.mkdir(parents=True, exist_ok=True)`: record the directory and all
its ancestors as existing. -/
def mkdirParents (s : Sys) (p : FilePath) : Sys :=
  let anc := (List.range p.length).map (fun i => p.take (i + 1))
  { s with dirs := s.dirs ++ anc.filter (fun q => ¬ s.dirs.contains q) }

/-- Model of `DISK_DIR` from `vm_manager/config.py`:
`/var/lib/libvirt/images/vms/disks`. -/
def DISK_DIR : FilePath := ["var", "lib", "libvirt", "images", "vms", "disks"]

def qcow2Ext : String := ".qcow2"
def jsonExt : String := ".json"

/-- The per-VM checkpoint directory `DISK_DIR / "checkpoints" / vm_name`. -/
def checkpointDirOf (vmName : String) : FilePath :=
  DISK_DIR ++ ["checkpoints", vmName]

/-- Model of `datetime.now().isoformat()`, over the abstract clock. -/
def isoNow (t : Nat) : String := "1970-01-01T00:00:" ++ toString t

/-- Model of `datetime.now().strftime("%Y%m%d-%H%M%S")`, over the abstract clock. -/
def stampNow (t : Nat) : String := "19700101-0000" ++ toString t

def nameKey : String := "name"
def descriptionKey : String := "description"
def createdKey : String := "created"
def originalDiskKey : String := "original_disk"
def vmNameKey : String := "vm_name"

/-- Render a path the way `str(Path(...))` appears inside metadata. -/
def pathStr (p : FilePath) : String :=
  p.foldl (fun acc c => acc ++ "/" ++ c) ("")

/-- Model of `LibvirtService.create_checkpoint(vm_name, checkpoint_name, description)`.
`copyOk` is the outcome of the `shutil.copy2` call; when it raises, the
broad `except` returns `False`, leaving a possibly truncated destination
file.  Returns the boolean result and the post state. -/
def create_checkpoint (s : Sys) (vmName checkpointName description : String)
    (copyOk : Bool) : Bool × Sys :=
  match domLookup s.doms vmName with
  | none => (false, s)
  | some domain =>
    match xmlDescDisk domain false with
    | none => (false, s)
    | some diskPath =>
      if ¬ fsExists s.fs diskPath then (false, s)
      else
        let checkpointDir := checkpointDirOf vmName
        let s1 := mkdirParents s checkpointDir
        let checkpointDisk := checkpointDir ++ [checkpointName ++ qcow2Ext]
        if fsExists s1.fs checkpointDisk then (false, s1)
        else
          match fsLookup s1.fs diskPath with
          | none => (false, s1)
          | some content =>
            if ¬ copyOk then
              (false, { s1 with fs := fsWrite s1.fs checkpointDisk (.diskBytes ("")) })
            else
              let s2 := { s1 with fs := fsWrite s1.fs checkpointDisk content }
              let metadata : List (String × String) :=
                [(nameKey, checkpointName),
                 (descriptionKey, description),
                 (createdKey, isoNow s.now),
                 (originalDiskKey, pathStr diskPath),
                 (vmNameKey, vmName)]
              let metadataFile := checkpointDir ++ [checkpointName ++ jsonExt]
              (true, { s2 with fs := fsWrite s2.fs metadataFile (.metaJson metadata) })

/-- Strip `suffix` from the end of `l`, if present (over character lists). -/
def dropSuffixList (l suffix : List Char) : Option (List Char) :=
  if suffix.isSuffixOf l then some (l.take (l.length - suffix.length)) else none

/-- Model of `Path.glob("*.json")` membership plus `Path.stem`, on one filename:
the stem when the name ends with `.json`, else `none`. -/
def jsonStemOfName (fname : String) : Option String :=
  (dropSuffixList fname.data jsonExt.data).map (fun l => String.mk l)

/-- The stem of `p` when `p` is a `*.json` file directly inside
`checkpointDir`, else `none`. -/
def pathJsonStem (checkpointDir : FilePath) (p : FilePath) : Option String :=
  if p.dropLast = checkpointDir then p.getLast?.bind jsonStemOfName else none

/-- The `*.json` files of the checkpoint directory, as (stem, contents)
pairs, in filesystem enumeration order. -/
def globJsonEntries (fs : Fs) (checkpointDir : FilePath) : List (String × FileData) :=
  fs.filterMap fun pd =>
    match pathJsonStem checkpointDir pd.1 with
    | some stem => some (stem, pd.2)
    | none => none

/-- The timestamp-display reformatting of `list_checkpoints`
(`datetime.fromisoformat` then `strftime`, falling back to the raw string
when parsing fails).  Timestamps are opaque renderings of the abstract
clock here, so the reformatting is modelled as the identity. -/
def displayTs (created : String) : String := created

/-- One listing row built from a parsed metadata file: unparsable files
(`diskBytes` contents) are skipped (`continue` in the source). -/
def listEntryOf (currentDisk : Option FilePath) (checkpointDir : FilePath)
    (stem : String) (d : FileData) : Option (String × String × Bool) :=
  match d with
  | .diskBytes _ => none
  | .metaJson fields =>
    let name := (fields.lookup nameKey).getD stem
    let created := (fields.lookup createdKey).getD ("")
    let checkpointDisk := checkpointDir ++ [name ++ qcow2Ext]
    let isActive := currentDisk = some checkpointDisk
    some (name, displayTs created, isActive)

/-- Model of `LibvirtService.list_checkpoints(vm_name)`: rows `(name, created,
is_active)` sorted by the created string, newest first.  The Python
`list.sort(key=..., reverse=True)` is a stable descending sort; a stable
sort's output is uniquely determined by its strict comes-before relation
(here: strictly greater created string), so it is modelled by a stable
insertion sort with exactly that relation. -/
def list_checkpoints (s : Sys) (vmName : String) : List (String × String × Bool) :=
  match domLookup s.doms vmName with
  | none => []
  | some domain =>
    let currentDisk := xmlDescDisk domain true
    let checkpointDir := checkpointDirOf vmName
    if ¬ dirExists s checkpointDir then []
    else
      let entries := (globJsonEntries s.fs checkpointDir).filterMap
        (fun sd => listEntryOf currentDisk checkpointDir sd.1 sd.2)
      List.insertionSort (fun a b => b.2.1 < a.2.1) entries

/-- The auto-generated name of the preserve-before-switch checkpoint. -/
def autoCheckpointName (t : Nat) : String := "auto-" ++ stampNow t

/-- The tail of `switch_checkpoint` after the optional auto-preserve:
set the disk element to the target and `conn.defineXML` the updated
persistent configuration, returning `True`; a raised `libvirtError` is
caught by the broad `except`, returning `False` with the configuration
unchanged. -/
def switchFinish (s2 : Sys) (domain : Domain) (vmName : String) (targetDisk : FilePath)
    (defineOk : Bool) : Bool × Sys :=
  if ¬ defineOk then (false, s2)
  else
    (true, { s2 with
      doms := domDefine s2.doms vmName ({ domain with persistentDisk := some targetDisk }) })

/-- Model of `LibvirtService.switch_checkpoint(vm_name, checkpoint_name)`.
`copyOk` is the outcome of the auto-preserve `shutil.copy2` (raising on
failure, possibly leaving a truncated destination); `defineOk` is whether
`conn.defineXML` succeeds (the Python libvirt binding raises
`libvirtError` on failure and never returns `None`, and this call site
ignores the return value). -/
def switch_checkpoint (s : Sys) (vmName checkpointName : String)
    (copyOk defineOk : Bool) : Bool × Sys :=
  match domLookup s.doms vmName with
  | none => (false, s)
  | some domain =>
    match xmlDescDisk domain true with
    | none => (false, s)
    | some currentDisk =>
      if ¬ fsExists s.fs currentDisk then (false, s)
      else
        let checkpointDir := checkpointDirOf vmName
        let s1 := mkdirParents s checkpointDir
        let targetDisk := checkpointDir ++ [checkpointName ++ qcow2Ext]
        if ¬ fsExists s1.fs targetDisk then (false, s1)
        else if currentDisk = targetDisk then (true, s1)
        else
          if currentDisk.dropLast ≠ checkpointDir then
            let autoName := autoCheckpointName s.now
            let autoDisk := checkpointDir ++ [autoName ++ qcow2Ext]
            let autoMeta := checkpointDir ++ [autoName ++ jsonExt]
            match fsLookup s1.fs currentDisk with
            | none => (false, s1)
            | some content =>
              if ¬ copyOk then
                (false, { s1 with fs := fsWrite s1.fs autoDisk (.diskBytes ("")) })
              else
                let s2 := { s1 with fs := fsWrite s1.fs autoDisk content }
                let metadata : List (String × String) :=
                  [(nameKey, autoName),
                   (descriptionKey, "Auto-saved before switch"),
                   (createdKey, isoNow s.now)]
                switchFinish { s2 with fs := fsWrite s2.fs autoMeta (.metaJson metadata) }
                  domain vmName targetDisk defineOk
          else switchFinish s1 domain vmName targetDisk defineOk

/-- Model of `LibvirtService.delete_checkpoint(vm_name, checkpoint_name)`: unlink
the disk file and the metadata file, each only if present; returns `True`.
There is no check of whether the checkpoint is the active one. -/
def delete_checkpoint (s : Sys) (vmName checkpointName : String) : Bool × Sys :=
  let checkpointDir := checkpointDirOf vmName
  let checkpointDisk := checkpointDir ++ [checkpointName ++ qcow2Ext]
  let metadataFile := checkpointDir ++ [checkpointName ++ jsonExt]
  let s1 :=
    if fsExists s.fs checkpointDisk then { s with fs := fsRemove s.fs checkpointDisk } else s
  let s2 :=
    if fsExists s1.fs metadataFile then { s1 with fs := fsRemove s1.fs metadataFile } else s1
  (true, s2)

/-- Model of `Path.rename`: move the file at `src` to `dst` (no-op on missing
source, which no modelled call path reaches). -/
def fsRename (fs : Fs) (src dst : FilePath) : Fs :=
  match fsLookup fs src with
  | none => fs
  | some c => fsWrite (fsRemove fs src) dst c

/-- Outcome of the `conn.defineXML` call in `separate_checkpoint_to_vm`,
whose return value the source compares against `None`: success, a `None`
return (the branch the source's rollback is written for; the real binding
raises instead), or a raised `libvirtError`. -/
inductive DefineRes where
  | ok
  | retNone
  | raised
deriving DecidableEq, Repr

/-- The clone of the source domain XML made by `separate_checkpoint_to_vm`:
name and UUID replaced (not modelled), primary disk source set to
`newDisk` when a disk element exists.  The clone starts from the default
`XMLDesc()` view and the defined clone is not running. -/
def cloneDomainXml (d : Domain) (newDisk : FilePath) : Domain :=
  match xmlDescDisk d false with
  | some _ => { persistentDisk := some newDisk, liveDisk := none, running := false }
  | none => { persistentDisk := none, liveDisk := none, running := false }

/-- Model of `LibvirtService.separate_checkpoint_to_vm(checkpoint_name, new_vm_name,
source_vm_name)`: move the checkpoint disk to `DISK_DIR/{new_vm_name}.qcow2`,
delete the checkpoint metadata, then define the cloned domain.  Only the
`None`-return branch of `defineXML` moves the disk back; a raised error is
swallowed by the broad `except` with no rollback. -/
def separate_checkpoint_to_vm (s : Sys) (checkpointName newVmName sourceVmName : String)
    (defineRes : DefineRes) : Bool × Sys :=
  match domLookup s.doms sourceVmName with
  | none => (false, s)
  | some sourceDomain =>
    let checkpointDir := checkpointDirOf sourceVmName
    let checkpointDisk := checkpointDir ++ [checkpointName ++ qcow2Ext]
    let checkpointMeta := checkpointDir ++ [checkpointName ++ jsonExt]
    if ¬ fsExists s.fs checkpointDisk then (false, s)
    else
      let newDisk := DISK_DIR ++ [newVmName ++ qcow2Ext]
      if fsExists s.fs newDisk then (false, s)
      else
        let s1 := { s with fs := fsRename s.fs checkpointDisk newDisk }
        let s2 :=
          if fsExists s1.fs checkpointMeta then { s1 with fs := fsRemove s1.fs checkpointMeta }
          else s1
        match defineRes with
        | .ok =>
          (true, { s2 with doms := domDefine s2.doms newVmName (cloneDomainXml sourceDomain newDisk) })
        | .retNone =>
          (false, { s2 with fs := fsRename s2.fs newDisk checkpointDisk })
        | .raised => (false, s2)

/-- Outcome of `CheckpointDialog._delete_checkpoint`. -/
inductive DialogDeleteResult where
  | noSelection
  | refusedActive
  | cancelled
  | invoked (ok : Bool)
deriving DecidableEq, Repr

/-- Model of `CheckpointDialog._delete_checkpoint`, with `self.checkpoints` freshly
refreshed from `on_list_checkpoints` (wired in `app.py` to
`list_checkpoints(vm_name)`) and `on_delete_checkpoint` wired to
`delete_checkpoint(vm_name, name)`.  When the row under the cursor has
`is_active` set, the dialog reports ("Cannot delete active checkpoint") and
never invokes deletion. -/
def dialogDeleteCheckpoint (s : Sys) (vmName : String) (cursorIndex : Nat)
    (confirmed : Bool) : DialogDeleteResult × Sys :=
  let checkpoints := list_checkpoints s vmName
  match checkpoints.get? cursorIndex with
  | none => (.noSelection, s)
  | some entry =>
    if entry.2.2 then (.refusedActive, s)
    else if ¬ confirmed then (.cancelled, s)
    else
      let r := delete_checkpoint s vmName entry.1
      (.invoked r.1, r.2)

/-! ### Basic lemmas about the state model -/

@[simp]
theorem mkdirParents_fs (s : Sys) (p : FilePath) : (mkdirParents s p).fs = s.fs := rfl

@[simp]
theorem mkdirParents_doms (s : Sys) (p : FilePath) : (mkdirParents s p).doms = s.doms := rfl

@[simp]
theorem mkdirParents_now (s : Sys) (p : FilePath) : (mkdirParents s p).now = s.now := rfl

theorem fsLookup_fsWrite_self (fs : Fs) (p : FilePath) (d : FileData) :
    fsLookup (fsWrite fs p d) p = some d := by
  induction fs with
  | nil => simp [fsWrite, fsLookup]
  | cons hd tl ih =>
    obtain ⟨q, e⟩ := hd
    by_cases h : p = q <;> simp [fsWrite, fsLookup, h, ih]

theorem fsLookup_fsWrite_ne (fs : Fs) (p q : FilePath) (d : FileData) (h : p ≠ q) :
    fsLookup (fsWrite fs q d) p = fsLookup fs p := by
  induction fs with
  | nil => simp [fsWrite, fsLookup, h]
  | cons hd tl ih =>
    obtain ⟨r, e⟩ := hd
    by_cases hq : q = r
    · subst hq
      simp [fsWrite, fsLookup, h]
    · by_cases hp : p = r <;> simp [fsWrite, fsLookup, hp, hq, ih]

theorem fsLookup_fsRemove_self (fs : Fs) (p : FilePath) :
    fsLookup (fsRemove fs p) p = none := by
  induction fs with
  | nil => simp [fsRemove, fsLookup]
  | cons hd tl ih =>
    obtain ⟨q, e⟩ := hd
    by_cases h : p = q
    · subst h
      simpa [fsRemove] using ih
    · simp [fsRemove, fsLookup, h, ih]

theorem fsLookup_fsRemove_ne (fs : Fs) (p q : FilePath) (h : p ≠ q) :
    fsLookup (fsRemove fs q) p = fsLookup fs p := by
  induction fs with
  | nil => simp [fsRemove, fsLookup]
  | cons hd tl ih =>
    obtain ⟨r, e⟩ := hd
    by_cases hq : q = r
    · subst hq
      simp [fsRemove, fsLookup, h, ih]
    · by_cases hp : p = r <;> simp [fsRemove, fsLookup, hp, hq, ih]

theorem domLookup_domDefine_self (ds : List (String × Domain)) (vm : String) (d : Domain) :
    domLookup (domDefine ds vm d) vm = some d := by
  induction ds with
  | nil => simp [domDefine, domLookup]
  | cons hd tl ih =>
    obtain ⟨n, e⟩ := hd
    by_cases h : vm = n <;> simp [domDefine, domLookup, h, ih]

theorem mem_fsWrite (fs : Fs) (p : FilePath) (d : FileData) (pd : FilePath × FileData)
    (h : pd ∈ fsWrite fs p d) : pd = (p, d) ∨ pd ∈ fs := by
  induction fs with
  | nil => simpa [fsWrite] using h
  | cons hd tl ih =>
    obtain ⟨q, e⟩ := hd
    by_cases hq : p = q
    · subst hq
      simp only [fsWrite, if_pos rfl] at h
      rcases List.mem_cons.mp h with h1 | h1
      · exact Or.inl h1
      · exact Or.inr (List.mem_cons_of_mem _ h1)
    · simp only [fsWrite, if_neg hq] at h
      rcases List.mem_cons.mp h with h1 | h1
      · refine Or.inr ?_
        rw [h1]
        exact List.mem_cons_self _ _
      · rcases ih h1 with h2 | h2
        · exact Or.inl h2
        · exact Or.inr (List.mem_cons_of_mem _ h2)

theorem mem_map_fst_fsWrite (fs : Fs) (p : FilePath) (d : FileData) (x : FilePath)
    (h : x ∈ (fsWrite fs p d).map Prod.fst) : x = p ∨ x ∈ fs.map Prod.fst := by
  rcases List.mem_map.mp h with ⟨pd, hmem, hx⟩
  rcases mem_fsWrite fs p d pd hmem with h1 | h1
  · left
    rw [h1] at hx
    exact hx.symm
  · right
    exact hx ▸ List.mem_map_of_mem Prod.fst h1

theorem nodup_map_fst_fsWrite (fs : Fs) (p : FilePath) (d : FileData)
    (h : (fs.map Prod.fst).Nodup) : ((fsWrite fs p d).map Prod.fst).Nodup := by
  induction fs with
  | nil => simp [fsWrite]
  | cons hd tl ih =>
    obtain ⟨q, e⟩ := hd
    simp only [List.map_cons, List.nodup_cons] at h
    by_cases hq : p = q
    · subst hq
      have heq : fsWrite ((p, e) :: tl) p d = (p, d) :: tl := by
        simp [fsWrite]
      rw [heq, List.map_cons, List.nodup_cons]
      exact ⟨h.1, h.2⟩
    · simp only [fsWrite, if_neg hq, List.map_cons, List.nodup_cons]
      refine ⟨fun hmem => ?_, ih h.2⟩
      rcases mem_map_fst_fsWrite tl p d q hmem with h1 | h1
      · exact hq (h1.symm)
      · exact h.1 h1

/-! ### String suffix lemmas

These connect the filename conventions (`{name}.qcow2`, `{name}.json`) to
the glob/stem computations of `list_checkpoints`. -/

theorem string_append_right_inj (a b suf : String) (h : a ++ suf = b ++ suf) : a = b := by
  have hd : a.data ++ suf.data = b.data ++ suf.data := by
    rw [← String.data_append, ← String.data_append, h]
  have hlen : a.data.length = b.data.length := by
    have := congrArg List.length hd
    simpa using this
  exact String.ext (List.append_inj_left hd hlen)

theorem data_getLast_qcow2 (a : String) : (a ++ qcow2Ext).data.getLast? = some '2' := by
  rw [String.data_append, List.getLast?_append]
  have h2 : qcow2Ext.data.getLast? = some '2' := by decide
  rw [h2]
  rfl

theorem data_getLast_json (a : String) : (a ++ jsonExt).data.getLast? = some 'n' := by
  rw [String.data_append, List.getLast?_append]
  have h2 : jsonExt.data.getLast? = some 'n' := by decide
  rw [h2]
  rfl

theorem qcow2_ne_json (a b : String) : a ++ qcow2Ext ≠ b ++ jsonExt := by
  intro h
  have h1 := data_getLast_qcow2 a
  rw [h, data_getLast_json b] at h1
  simp at h1

theorem qcow2_append_inj (a b : String) (h : a ++ qcow2Ext = b ++ qcow2Ext) : a = b :=
  string_append_right_inj a b qcow2Ext h

theorem json_append_inj (a b : String) (h : a ++ jsonExt = b ++ jsonExt) : a = b :=
  string_append_right_inj a b jsonExt h

theorem jsonStemOfName_append (a : String) : jsonStemOfName (a ++ jsonExt) = some a := by
  have hsuf : jsonExt.data.isSuffixOf (a ++ jsonExt).data = true := by
    rw [List.isSuffixOf_iff_suffix, String.data_append]
    exact List.suffix_append _ _
  have hlen : ((a ++ jsonExt).data.length - jsonExt.data.length) = a.data.length := by
    rw [String.data_append]
    simp
  rw [jsonStemOfName, dropSuffixList, if_pos hsuf, hlen]
  have htake : (a ++ jsonExt).data.take a.data.length = a.data := by
    rw [String.data_append]
    exact List.take_left _ _
  rw [htake]
  rfl

theorem jsonStemOfName_eq_some (f st : String) (h : jsonStemOfName f = some st) :
    f = st ++ jsonExt := by
  rw [jsonStemOfName, dropSuffixList] at h
  by_cases hsuf : jsonExt.data.isSuffixOf f.data = true
  · rw [if_pos hsuf] at h
    replace h := Option.some.inj h
    rcases (List.isSuffixOf_iff_suffix.mp hsuf) with ⟨t, ht⟩
    have hlen : f.data.length - jsonExt.data.length = t.length := by
      rw [← ht]
      simp
    have htake : f.data.take t.length = t := by
      conv_lhs => rw [← ht]
      exact List.take_left _ _
    have hst : st = String.mk t := by
      rw [← h, hlen, htake]
    apply String.ext
    rw [hst, ← ht, String.data_append]
  · rw [if_neg hsuf] at h
    simp at h

theorem jsonStemOfName_qcow2 (a : String) : jsonStemOfName (a ++ qcow2Ext) = none := by
  rw [jsonStemOfName, dropSuffixList, if_neg]
  · rfl
  · intro hsuf
    rcases (List.isSuffixOf_iff_suffix.mp hsuf) with ⟨t, ht⟩
    have h1 := data_getLast_qcow2 a
    rw [← ht, List.getLast?_append] at h1
    have h2 : jsonExt.data.getLast? = some 'n' := by decide
    rw [h2] at h1
    have h3 : ('n' : Char) = '2' := Option.some.inj h1
    exact absurd h3 (by decide)

theorem pathJsonStem_concat (checkpointDir : FilePath) (fname : String) :
    pathJsonStem checkpointDir (checkpointDir ++ [fname]) = jsonStemOfName fname := by
  rw [pathJsonStem, List.dropLast_concat, if_pos rfl, List.getLast?_concat]
  rfl

theorem pathJsonStem_eq_some (checkpointDir p : FilePath) (st : String)
    (h : pathJsonStem checkpointDir p = some st) : p = checkpointDir ++ [st ++ jsonExt] := by
  rw [pathJsonStem] at h
  by_cases hdrop : p.dropLast = checkpointDir
  · rw [if_pos hdrop] at h
    match hlast : p.getLast? with
    | none => rw [hlast] at h; simp at h
    | some fname =>
      rw [hlast] at h
      replace h : jsonStemOfName fname = some st := h
      have hne : p ≠ [] := by
        intro hnil
        rw [hnil] at hlast
        simp at hlast
      have hgl : p.getLast hne = fname := by
        have := List.getLast?_eq_getLast p hne
        rw [hlast] at this
        exact (Option.some_inj.mp this).symm
      have hp : p.dropLast ++ [p.getLast hne] = p := List.dropLast_append_getLast hne
      rw [← hp, hdrop, hgl, jsonStemOfName_eq_some fname st h]
  · rw [if_neg hdrop] at h
    simp at h

/-! ### Symbolic execution of `switch_checkpoint` -/

theorem target_ne_current (vmName checkpointName : String) (currentDisk : FilePath)
    (hpar : currentDisk.dropLast ≠ checkpointDirOf vmName) :
    currentDisk ≠ checkpointDirOf vmName ++ [checkpointName ++ qcow2Ext] := by
  intro h
  apply hpar
  rw [h]
  exact List.dropLast_concat

/-- Execution of `switch_checkpoint` once the preserve-before-switch branch
is reached: current disk readable, target checkpoint disk present, current
disk outside the checkpoint directory. -/
theorem switch_checkpoint_eq_of_preserve (s : Sys) (vmName checkpointName : String)
    (copyOk defineOk : Bool) (domain : Domain) (currentDisk : FilePath) (content : FileData)
    (hdom : domLookup s.doms vmName = some domain)
    (hdisk : domain.persistentDisk = some currentDisk)
    (hcur : fsLookup s.fs currentDisk = some content)
    (htgt : fsExists s.fs (checkpointDirOf vmName ++ [checkpointName ++ qcow2Ext]) = true)
    (hpar : currentDisk.dropLast ≠ checkpointDirOf vmName) :
    switch_checkpoint s vmName checkpointName copyOk defineOk =
      (if copyOk then
        if defineOk then
          (true,
            { mkdirParents s (checkpointDirOf vmName) with
              fs := fsWrite
                (fsWrite s.fs
                  (checkpointDirOf vmName ++ [autoCheckpointName s.now ++ qcow2Ext]) content)
                (checkpointDirOf vmName ++ [autoCheckpointName s.now ++ jsonExt])
                (.metaJson
                  [(nameKey, autoCheckpointName s.now),
                   (descriptionKey, "Auto-saved before switch"),
                   (createdKey, isoNow s.now)]),
              doms := domDefine s.doms vmName
                { domain with
                  persistentDisk :=
                    some (checkpointDirOf vmName ++ [checkpointName ++ qcow2Ext]) } })
        else
          (false,
            { mkdirParents s (checkpointDirOf vmName) with
              fs := fsWrite
                (fsWrite s.fs
                  (checkpointDirOf vmName ++ [autoCheckpointName s.now ++ qcow2Ext]) content)
                (checkpointDirOf vmName ++ [autoCheckpointName s.now ++ jsonExt])
                (.metaJson
                  [(nameKey, autoCheckpointName s.now),
                   (descriptionKey, "Auto-saved before switch"),
                   (createdKey, isoNow s.now)]) })
      else
        (false,
          { mkdirParents s (checkpointDirOf vmName) with
            fs := fsWrite s.fs
              (checkpointDirOf vmName ++ [autoCheckpointName s.now ++ qcow2Ext])
              (.diskBytes ("")) })) := by
  have hex : fsExists s.fs currentDisk = true := by
    rw [fsExists, hcur]
    rfl
  have hne : currentDisk ≠ checkpointDirOf vmName ++ [checkpointName ++ qcow2Ext] :=
    target_ne_current vmName checkpointName currentDisk hpar
  unfold switch_checkpoint
  rw [hdom]
  simp only [xmlDescDisk, eq_self_iff_true, if_true, hdisk, hex, htgt, mkdirParents_fs,
    mkdirParents_doms, mkdirParents_now, not_true, if_false, if_neg hne, if_pos hpar, hcur]
  cases copyOk with
  | false => simp [switchFinish]
  | true =>
    cases defineOk with
    | false => simp [switchFinish]
    | true => simp [switchFinish]

/-! ### C5 -/

/-- C5: when the VM's persistent disk path already equals the target
checkpoint's disk file (which exists), `switch_checkpoint` returns success
and changes neither the filesystem nor any domain definition. -/
theorem C5_switch_idempotent (s : Sys) (vmName checkpointName : String)
    (copyOk defineOk : Bool) (domain : Domain)
    (hdom : domLookup s.doms vmName = some domain)
    (hdisk : domain.persistentDisk =
      some (checkpointDirOf vmName ++ [checkpointName ++ qcow2Ext]))
    (hex : fsExists s.fs (checkpointDirOf vmName ++ [checkpointName ++ qcow2Ext]) = true) :
    (switch_checkpoint s vmName checkpointName copyOk defineOk).1 = true ∧
    (switch_checkpoint s vmName checkpointName copyOk defineOk).2.fs = s.fs ∧
    (switch_checkpoint s vmName checkpointName copyOk defineOk).2.doms = s.doms := by
  unfold switch_checkpoint
  rw [hdom]
  simp only [xmlDescDisk, eq_self_iff_true, if_true, hdisk, hex, mkdirParents_fs,
    mkdirParents_doms, not_true, if_false]
  simp

def w5dom : Domain :=
  { persistentDisk := some (checkpointDirOf ("vm") ++ ["cp.qcow2"]),
    liveDisk := none, running := false }

def w5sys : Sys :=
  { fs := [(checkpointDirOf ("vm") ++ ["cp.qcow2"], .diskBytes ("A"))],
    dirs := [checkpointDirOf ("vm")], doms := [("vm", w5dom)], now := 0 }

/-- Witness for C5 at a concrete state. -/
theorem C5_switch_idempotent_witness :
    (switch_checkpoint w5sys ("vm") ("cp") true true).1 = true ∧
    (switch_checkpoint w5sys ("vm") ("cp") true true).2.fs = w5sys.fs ∧
    (switch_checkpoint w5sys ("vm") ("cp") true true).2.doms = w5sys.doms :=
  C5_switch_idempotent w5sys ("vm") ("cp") true true w5dom (by decide) (by decide) (by decide)

/-! ### C6 -/

/-- C6: when the auto-preserve copy of the current disk fails,
`switch_checkpoint` returns failure and leaves every domain definition —
in particular the VM's persistent disk path — unchanged. -/
theorem C6_switch_copy_failure_aborts (s : Sys) (vmName checkpointName : String)
    (defineOk : Bool) (domain : Domain) (currentDisk : FilePath) (content : FileData)
    (hdom : domLookup s.doms vmName = some domain)
    (hdisk : domain.persistentDisk = some currentDisk)
    (hcur : fsLookup s.fs currentDisk = some content)
    (htgt : fsExists s.fs (checkpointDirOf vmName ++ [checkpointName ++ qcow2Ext]) = true)
    (hpar : currentDisk.dropLast ≠ checkpointDirOf vmName) :
    (switch_checkpoint s vmName checkpointName false defineOk).1 = false ∧
    (switch_checkpoint s vmName checkpointName false defineOk).2.doms = s.doms := by
  rw [switch_checkpoint_eq_of_preserve s vmName checkpointName false defineOk domain
    currentDisk content hdom hdisk hcur htgt hpar]
  simp

def w6dom : Domain :=
  { persistentDisk := some (DISK_DIR ++ ["vm.qcow2"]), liveDisk := none, running := false }

def w6sys : Sys :=
  { fs := [(DISK_DIR ++ ["vm.qcow2"], .diskBytes ("A")),
           (checkpointDirOf ("vm") ++ ["cp.qcow2"], .diskBytes ("B"))],
    dirs := [DISK_DIR, checkpointDirOf ("vm")], doms := [("vm", w6dom)], now := 0 }

/-- Witness for C6 at a concrete state. -/
theorem C6_switch_copy_failure_aborts_witness :
    (switch_checkpoint w6sys ("vm") ("cp") false true).1 = false ∧
    (switch_checkpoint w6sys ("vm") ("cp") false true).2.doms = w6sys.doms :=
  C6_switch_copy_failure_aborts w6sys ("vm") ("cp") true w6dom (DISK_DIR ++ ["vm.qcow2"])
    (.diskBytes ("A")) (by decide) (by decide) (by decide) (by decide) (by decide)

/-! ### C7 -/

/-- C7: `create_checkpoint` with a checkpoint name whose disk file already
exists returns `false` and leaves the filesystem — in particular the
existing disk file and the absence of a new metadata file — untouched. -/
theorem C7_create_collision_fails (s : Sys) (vmName checkpointName description : String)
    (copyOk : Bool)
    (hcol : fsExists s.fs (checkpointDirOf vmName ++ [checkpointName ++ qcow2Ext]) = true) :
    (create_checkpoint s vmName checkpointName description copyOk).1 = false ∧
    (create_checkpoint s vmName checkpointName description copyOk).2.fs = s.fs := by
  unfold create_checkpoint
  cases hdom : domLookup s.doms vmName with
  | none => simp [hdom]
  | some domain =>
    cases hdisk : xmlDescDisk domain false with
    | none => simp [hdom, hdisk]
    | some diskPath =>
      by_cases hex : fsExists s.fs diskPath = true
      · simp [hdom, hdisk, hex, hcol]
      · rw [Bool.not_eq_true] at hex
        simp [hdom, hdisk, hex]

def w7sys : Sys :=
  { fs := [(DISK_DIR ++ ["vm.qcow2"], .diskBytes ("A")),
           (checkpointDirOf ("vm") ++ ["cp.qcow2"], .diskBytes ("B"))],
    dirs := [DISK_DIR, checkpointDirOf ("vm")], doms := [("vm", w6dom)], now := 0 }

/-- Witness for C7 at a concrete state. -/
theorem C7_create_collision_fails_witness :
    (create_checkpoint w7sys ("vm") ("cp") ("d") true).1 = false ∧
    (create_checkpoint w7sys ("vm") ("cp") ("d") true).2.fs = w7sys.fs :=
  C7_create_collision_fails w7sys ("vm") ("cp") ("d") true (by decide)

/-! ### C1 -/

/-- C1: a successful `switch_checkpoint` on a VM whose current persistent
disk exists and lies outside the checkpoint directory writes an auto-named
checkpoint disk holding exactly the pre-switch disk content, writes its
metadata file, and repoints the VM's persistent disk at the target
checkpoint's disk file. -/
theorem C1_switch_preserves_current (s s' : Sys) (vmName checkpointName : String)
    (copyOk defineOk : Bool) (domain : Domain) (currentDisk : FilePath) (content : FileData)
    (hdom : domLookup s.doms vmName = some domain)
    (hdisk : domain.persistentDisk = some currentDisk)
    (hcur : fsLookup s.fs currentDisk = some content)
    (hpar : currentDisk.dropLast ≠ checkpointDirOf vmName)
    (htgt : fsExists s.fs (checkpointDirOf vmName ++ [checkpointName ++ qcow2Ext]) = true)
    (hrun : switch_checkpoint s vmName checkpointName copyOk defineOk = (true, s')) :
    fsLookup s'.fs (checkpointDirOf vmName ++ [autoCheckpointName s.now ++ qcow2Ext]) =
      some content ∧
    fsLookup s'.fs (checkpointDirOf vmName ++ [autoCheckpointName s.now ++ jsonExt]) =
      some (.metaJson
        [(nameKey, autoCheckpointName s.now),
         (descriptionKey, "Auto-saved before switch"),
         (createdKey, isoNow s.now)]) ∧
    domLookup s'.doms vmName =
      some { domain with
        persistentDisk := some (checkpointDirOf vmName ++ [checkpointName ++ qcow2Ext]) } := by
  rw [switch_checkpoint_eq_of_preserve s vmName checkpointName copyOk defineOk domain
    currentDisk content hdom hdisk hcur htgt hpar] at hrun
  cases copyOk with
  | false => simp at hrun
  | true =>
    cases defineOk with
    | false => simp at hrun
    | true =>
      simp only [eq_self_iff_true, if_true, Prod.mk.injEq, true_and] at hrun
      have hmetane : checkpointDirOf vmName ++ [autoCheckpointName s.now ++ qcow2Ext] ≠
          checkpointDirOf vmName ++ [autoCheckpointName s.now ++ jsonExt] := by
        intro h
        have h1 := List.append_cancel_left h
        exact qcow2_ne_json (autoCheckpointName s.now) (autoCheckpointName s.now)
          (List.singleton_inj.mp h1)
      rw [← hrun]
      refine ⟨?_, ?_, ?_⟩
      · rw [fsLookup_fsWrite_ne _ _ _ _ hmetane, fsLookup_fsWrite_self]
      · rw [fsLookup_fsWrite_self]
      · exact domLookup_domDefine_self _ _ _

/-- Witness for C1 at a concrete state. -/
theorem C1_switch_preserves_current_witness :
    fsLookup (switch_checkpoint w6sys ("vm") ("cp") true true).2.fs
      (checkpointDirOf ("vm") ++ [autoCheckpointName 0 ++ qcow2Ext]) =
      some (.diskBytes ("A")) ∧
    fsLookup (switch_checkpoint w6sys ("vm") ("cp") true true).2.fs
      (checkpointDirOf ("vm") ++ [autoCheckpointName 0 ++ jsonExt]) =
      some (.metaJson
        [(nameKey, autoCheckpointName 0),
         (descriptionKey, "Auto-saved before switch"),
         (createdKey, isoNow 0)]) ∧
    domLookup (switch_checkpoint w6sys ("vm") ("cp") true true).2.doms ("vm") =
      some { w6dom with
        persistentDisk := some (checkpointDirOf ("vm") ++ ["cp" ++ qcow2Ext]) } :=
  C1_switch_preserves_current w6sys (switch_checkpoint w6sys ("vm") ("cp") true true).2
    "vm" "cp" true true w6dom (DISK_DIR ++ ["vm.qcow2"]) (.diskBytes ("A"))
    (by decide) (by decide) (by decide) (by decide) (by decide) (by decide)

/-! ### Symbolic execution of `create_checkpoint` -/

theorem diskPath_ne_metaPath (dir : FilePath) (a b : String) :
    dir ++ [a ++ qcow2Ext] ≠ dir ++ [b ++ jsonExt] := by
  intro h
  exact qcow2_ne_json a b (List.singleton_inj.mp (List.append_cancel_left h))

/-- Execution of `create_checkpoint` when the source disk is readable and
no checkpoint disk with the requested name exists. -/
theorem create_checkpoint_eq_of_nocollision (s : Sys)
    (vmName checkpointName description : String) (copyOk : Bool)
    (domain : Domain) (diskPath : FilePath) (content : FileData)
    (hdom : domLookup s.doms vmName = some domain)
    (hdisk : xmlDescDisk domain false = some diskPath)
    (hcur : fsLookup s.fs diskPath = some content)
    (hnocol : fsExists s.fs (checkpointDirOf vmName ++ [checkpointName ++ qcow2Ext]) = false) :
    create_checkpoint s vmName checkpointName description copyOk =
      if copyOk then
        (true,
          { mkdirParents s (checkpointDirOf vmName) with
            fs := fsWrite
              (fsWrite s.fs (checkpointDirOf vmName ++ [checkpointName ++ qcow2Ext]) content)
              (checkpointDirOf vmName ++ [checkpointName ++ jsonExt])
              (.metaJson
                [(nameKey, checkpointName),
                 (descriptionKey, description),
                 (createdKey, isoNow s.now),
                 (originalDiskKey, pathStr diskPath),
                 (vmNameKey, vmName)]) })
      else
        (false,
          { mkdirParents s (checkpointDirOf vmName) with
            fs := fsWrite s.fs (checkpointDirOf vmName ++ [checkpointName ++ qcow2Ext])
              (.diskBytes ("")) }) := by
  have hex : fsExists s.fs diskPath = true := by
    rw [fsExists, hcur]
    rfl
  unfold create_checkpoint
  rw [hdom]
  simp only [hdisk, hex, hnocol, mkdirParents_fs, mkdirParents_doms, mkdirParents_now,
    not_true, if_false, Bool.false_eq_true, if_true, eq_self_iff_true, hcur]
  cases copyOk with
  | false => simp
  | true => simp

/-! ### C10 -/

/-- C10: when an orphaned metadata file exists but no disk file does,
`create_checkpoint` succeeds and silently replaces the metadata file with
the freshly generated metadata — the collision check inspects only the
`.qcow2` file. -/
theorem C10_create_overwrites_orphan_metadata (s : Sys)
    (vmName checkpointName description : String) (domain : Domain)
    (diskPath : FilePath) (content oldMeta : FileData)
    (hdom : domLookup s.doms vmName = some domain)
    (hdisk : xmlDescDisk domain false = some diskPath)
    (hcur : fsLookup s.fs diskPath = some content)
    (hnocol : fsExists s.fs (checkpointDirOf vmName ++ [checkpointName ++ qcow2Ext]) = false)
    (horphan : fsLookup s.fs (checkpointDirOf vmName ++ [checkpointName ++ jsonExt]) =
      some oldMeta) :
    (create_checkpoint s vmName checkpointName description true).1 = true ∧
    fsLookup (create_checkpoint s vmName checkpointName description true).2.fs
      (checkpointDirOf vmName ++ [checkpointName ++ jsonExt]) =
      some (.metaJson
        [(nameKey, checkpointName),
         (descriptionKey, description),
         (createdKey, isoNow s.now),
         (originalDiskKey, pathStr diskPath),
         (vmNameKey, vmName)]) := by
  rw [create_checkpoint_eq_of_nocollision s vmName checkpointName description true domain
    diskPath content hdom hdisk hcur hnocol]
  simp only [if_true, eq_self_iff_true]
  exact ⟨trivial, fsLookup_fsWrite_self _ _ _⟩

theorem fsRemove_of_not_exists (fs : Fs) (p : FilePath) (h : fsExists fs p = false) :
    fsRemove fs p = fs := by
  induction fs with
  | nil => rfl
  | cons hd tl ih =>
    obtain ⟨q, e⟩ := hd
    by_cases hq : p = q
    · exfalso
      rw [fsExists, fsLookup, if_pos hq] at h
      simp at h
    · rw [fsExists, fsLookup, if_neg hq] at h
      rw [fsRemove, if_neg hq, ih h]

theorem fsExists_fsRemove_self (fs : Fs) (p : FilePath) :
    fsExists (fsRemove fs p) p = false := by
  rw [fsExists, fsLookup_fsRemove_self]
  rfl

theorem fsExists_fsRemove_ne (fs : Fs) (p q : FilePath) (h : p ≠ q) :
    fsExists (fsRemove fs q) p = fsExists fs p := by
  rw [fsExists, fsLookup_fsRemove_ne _ _ _ h, fsExists]

/-- The final filesystem of `delete_checkpoint`: both files removed
(removal of an absent file is the identity). -/
theorem delete_checkpoint_fs (s : Sys) (vmName checkpointName : String) :
    (delete_checkpoint s vmName checkpointName).2.fs =
      fsRemove (fsRemove s.fs (checkpointDirOf vmName ++ [checkpointName ++ qcow2Ext]))
        (checkpointDirOf vmName ++ [checkpointName ++ jsonExt]) := by
  unfold delete_checkpoint
  by_cases h1 : fsExists s.fs (checkpointDirOf vmName ++ [checkpointName ++ qcow2Ext]) = true
  · by_cases h2 : fsExists (fsRemove s.fs (checkpointDirOf vmName ++ [checkpointName ++ qcow2Ext]))
        (checkpointDirOf vmName ++ [checkpointName ++ jsonExt]) = true
    · simp [h1, h2]
    · rw [Bool.not_eq_true] at h2
      simp [h1, h2, fsRemove_of_not_exists _ _ h2]
  · rw [Bool.not_eq_true] at h1
    by_cases h2 : fsExists s.fs (checkpointDirOf vmName ++ [checkpointName ++ jsonExt]) = true
    · simp [h1, h2, fsRemove_of_not_exists _ _ h1]
    · rw [Bool.not_eq_true] at h2
      simp [h1, h2, fsRemove_of_not_exists _ _ h1, fsRemove_of_not_exists _ _ h2]

def w10dom : Domain :=
  { persistentDisk := some (DISK_DIR ++ ["vm.qcow2"]), liveDisk := none, running := false }

def w10sys : Sys :=
  { fs := [(DISK_DIR ++ ["vm.qcow2"], .diskBytes ("A")),
           (checkpointDirOf ("vm") ++ ["cp.json"], .metaJson [("name", "stale")])],
    dirs := [DISK_DIR, checkpointDirOf ("vm")], doms := [("vm", w10dom)], now := 0 }

/-- Witness for C10 at a concrete state. -/
theorem C10_create_overwrites_orphan_metadata_witness :
    (create_checkpoint w10sys ("vm") ("cp") ("d") true).1 = true ∧
    fsLookup (create_checkpoint w10sys ("vm") ("cp") ("d") true).2.fs
      (checkpointDirOf ("vm") ++ ["cp" ++ jsonExt]) =
      some (.metaJson
        [(nameKey, "cp"), (descriptionKey, "d"), (createdKey, isoNow 0),
         (originalDiskKey, pathStr (DISK_DIR ++ ["vm.qcow2"])), (vmNameKey, "vm")]) :=
  C10_create_overwrites_orphan_metadata w10sys ("vm") ("cp") ("d") w10dom
    (DISK_DIR ++ ["vm.qcow2"]) (.diskBytes ("A")) (.metaJson [("name", "stale")])
    (by decide) (by decide) (by decide) (by decide) (by decide)

/-! ### C2 -/

def c2dom : Domain :=
  { persistentDisk := some (checkpointDirOf ("vm") ++ ["cp.qcow2"]),
    liveDisk := none, running := false }

def c2sys : Sys :=
  { fs := [(checkpointDirOf ("vm") ++ ["cp.qcow2"], .diskBytes ("B")),
           (checkpointDirOf ("vm") ++ ["cp.json"],
            .metaJson [("name", "cp"), ("created", "T1")])],
    dirs := [checkpointDirOf ("vm")], doms := [("vm", c2dom)], now := 0 }

/-- C2 counterexample: at a concrete state whose checkpoint `cp` is active
(its disk file equals the VM's persistent disk path) and has both files on
disk, `delete_checkpoint` returns success and removes both files, contrary
to the claim that it returns failure and leaves them present. -/
theorem C2_counterexample_delete_active_succeeds :
    domLookup c2sys.doms ("vm") = some c2dom ∧
    c2dom.persistentDisk = some (checkpointDirOf ("vm") ++ ["cp" ++ qcow2Ext]) ∧
    fsExists c2sys.fs (checkpointDirOf ("vm") ++ ["cp" ++ qcow2Ext]) = true ∧
    fsExists c2sys.fs (checkpointDirOf ("vm") ++ ["cp" ++ jsonExt]) = true ∧
    (delete_checkpoint c2sys ("vm") ("cp")).1 = true ∧
    fsExists (delete_checkpoint c2sys ("vm") ("cp")).2.fs
      (checkpointDirOf ("vm") ++ ["cp" ++ qcow2Ext]) = false ∧
    fsExists (delete_checkpoint c2sys ("vm") ("cp")).2.fs
      (checkpointDirOf ("vm") ++ ["cp" ++ jsonExt]) = false := by
  decide

/-- C2 amended: the service-level `delete_checkpoint` performs no
active-checkpoint check — for every state it returns success and removes
both files, active or not; the refusal happens only in the UI dialog
(`CheckpointDialog._delete_checkpoint`), which reports an error and leaves
the state untouched when the selected row is the active checkpoint. -/
theorem C2_amended_active_guard_in_dialog_only :
    (∀ (s : Sys) (vmName checkpointName : String),
      (delete_checkpoint s vmName checkpointName).1 = true ∧
      fsExists (delete_checkpoint s vmName checkpointName).2.fs
        (checkpointDirOf vmName ++ [checkpointName ++ qcow2Ext]) = false ∧
      fsExists (delete_checkpoint s vmName checkpointName).2.fs
        (checkpointDirOf vmName ++ [checkpointName ++ jsonExt]) = false) ∧
    (∀ (s : Sys) (vmName : String) (cursorIndex : Nat) (confirmed : Bool)
      (entry : String × String × Bool),
      (list_checkpoints s vmName).get? cursorIndex = some entry →
      entry.2.2 = true →
      dialogDeleteCheckpoint s vmName cursorIndex confirmed = (.refusedActive, s)) := by
  constructor
  · intro s vmName checkpointName
    have hne : checkpointDirOf vmName ++ [checkpointName ++ qcow2Ext] ≠
        checkpointDirOf vmName ++ [checkpointName ++ jsonExt] :=
      diskPath_ne_metaPath _ _ _
    refine ⟨rfl, ?_, ?_⟩
    · rw [delete_checkpoint_fs, fsExists_fsRemove_ne _ _ _ hne, fsExists_fsRemove_self]
    · rw [delete_checkpoint_fs, fsExists_fsRemove_self]
  · intro s vmName cursorIndex confirmed entry hget hact
    simp only [dialogDeleteCheckpoint]
    rw [hget]
    simp [hact]

/-- Witness for the amended C2 at a concrete state: the service deletes
the active checkpoint, the dialog refuses to. -/
theorem C2_amended_active_guard_in_dialog_only_witness :
    ((delete_checkpoint c2sys ("vm") ("cp")).1 = true ∧
      fsExists (delete_checkpoint c2sys ("vm") ("cp")).2.fs
        (checkpointDirOf ("vm") ++ ["cp" ++ qcow2Ext]) = false ∧
      fsExists (delete_checkpoint c2sys ("vm") ("cp")).2.fs
        (checkpointDirOf ("vm") ++ ["cp" ++ jsonExt]) = false) ∧
    dialogDeleteCheckpoint c2sys ("vm") 0 true = (.refusedActive, c2sys) :=
  ⟨C2_amended_active_guard_in_dialog_only.1 c2sys ("vm") ("cp"),
   C2_amended_active_guard_in_dialog_only.2 c2sys ("vm") 0 true ("cp", "T1", true)
     (by decide) (by decide)⟩

/-! ### C9 -/

/-- C9 counterexample: the auto-preserve step of `switch_checkpoint`
writes a metadata file containing only `name`, `description` and
`created`; `original_disk` and `vm_name` are absent, refuting the claim
that every metadata file written by the subsystem has all five fields. -/
theorem C9_counterexample_auto_metadata_lacks_fields :
    fsLookup (switch_checkpoint w6sys ("vm") ("cp") true true).2.fs
      (checkpointDirOf ("vm") ++ [autoCheckpointName 0 ++ jsonExt]) =
      some (.metaJson
        [(nameKey, autoCheckpointName 0),
         (descriptionKey, "Auto-saved before switch"),
         (createdKey, isoNow 0)]) ∧
    List.lookup originalDiskKey
      [(nameKey, autoCheckpointName 0),
       (descriptionKey, "Auto-saved before switch"),
       (createdKey, isoNow 0)] = none ∧
    List.lookup vmNameKey
      [(nameKey, autoCheckpointName 0),
       (descriptionKey, "Auto-saved before switch"),
       (createdKey, isoNow 0)] = none := by
  decide

/-- C9 amended: metadata written by `create_checkpoint` carries all five
schema fields (`name`, `description`, `created`, `original_disk`,
`vm_name`); the auto-preserve step of `switch_checkpoint` writes only
`name`, `description` and `created`, omitting `original_disk` and
`vm_name`. -/
theorem C9_amended_metadata_fields :
    (∀ (s : Sys) (vmName checkpointName description : String) (domain : Domain)
      (diskPath : FilePath) (content : FileData),
      domLookup s.doms vmName = some domain →
      xmlDescDisk domain false = some diskPath →
      fsLookup s.fs diskPath = some content →
      fsExists s.fs (checkpointDirOf vmName ++ [checkpointName ++ qcow2Ext]) = false →
      ∃ fields,
        fsLookup (create_checkpoint s vmName checkpointName description true).2.fs
          (checkpointDirOf vmName ++ [checkpointName ++ jsonExt]) =
          some (.metaJson fields) ∧
        fields.lookup nameKey = some checkpointName ∧
        fields.lookup descriptionKey = some description ∧
        fields.lookup createdKey = some (isoNow s.now) ∧
        fields.lookup originalDiskKey = some (pathStr diskPath) ∧
        fields.lookup vmNameKey = some vmName) ∧
    (∀ (s s' : Sys) (vmName checkpointName : String) (copyOk defineOk : Bool)
      (domain : Domain) (currentDisk : FilePath) (content : FileData),
      domLookup s.doms vmName = some domain →
      domain.persistentDisk = some currentDisk →
      fsLookup s.fs currentDisk = some content →
      fsExists s.fs (checkpointDirOf vmName ++ [checkpointName ++ qcow2Ext]) = true →
      currentDisk.dropLast ≠ checkpointDirOf vmName →
      switch_checkpoint s vmName checkpointName copyOk defineOk = (true, s') →
      ∃ fields,
        fsLookup s'.fs (checkpointDirOf vmName ++ [autoCheckpointName s.now ++ jsonExt]) =
          some (.metaJson fields) ∧
        fields.lookup nameKey = some (autoCheckpointName s.now) ∧
        fields.lookup descriptionKey = some ("Auto-saved before switch") ∧
        fields.lookup createdKey = some (isoNow s.now) ∧
        fields.lookup originalDiskKey = none ∧
        fields.lookup vmNameKey = none) := by
  constructor
  · intro s vmName checkpointName description domain diskPath content hdom hdisk hcur hnocol
    rw [create_checkpoint_eq_of_nocollision s vmName checkpointName description true domain
      diskPath content hdom hdisk hcur hnocol]
    simp only [if_true, eq_self_iff_true]
    refine ⟨_, fsLookup_fsWrite_self _ _ _, ?_, ?_, ?_, ?_, ?_⟩ <;> rfl
  · intro s s' vmName checkpointName copyOk defineOk domain currentDisk content
      hdom hdisk hcur htgt hpar hrun
    rw [switch_checkpoint_eq_of_preserve s vmName checkpointName copyOk defineOk domain
      currentDisk content hdom hdisk hcur htgt hpar] at hrun
    cases copyOk with
    | false => simp at hrun
    | true =>
      cases defineOk with
      | false => simp at hrun
      | true =>
        simp only [eq_self_iff_true, if_true, Prod.mk.injEq, true_and] at hrun
        rw [← hrun]
        refine ⟨_, fsLookup_fsWrite_self _ _ _, ?_, ?_, ?_, ?_, ?_⟩ <;> rfl

/-- Witness for the amended C9 at a concrete state. -/
theorem C9_amended_metadata_fields_witness :
    (∃ fields,
      fsLookup (create_checkpoint w6sys ("vm") ("new") ("d") true).2.fs
        (checkpointDirOf ("vm") ++ ["new" ++ jsonExt]) = some (.metaJson fields) ∧
      fields.lookup nameKey = some ("new") ∧
      fields.lookup descriptionKey = some ("d") ∧
      fields.lookup createdKey = some (isoNow 0) ∧
      fields.lookup originalDiskKey = some (pathStr (DISK_DIR ++ ["vm.qcow2"])) ∧
      fields.lookup vmNameKey = some ("vm")) ∧
    (∃ fields,
      fsLookup (switch_checkpoint w6sys ("vm") ("cp") true true).2.fs
        (checkpointDirOf ("vm") ++ [autoCheckpointName 0 ++ jsonExt]) =
        some (.metaJson fields) ∧
      fields.lookup nameKey = some (autoCheckpointName 0) ∧
      fields.lookup descriptionKey = some ("Auto-saved before switch") ∧
      fields.lookup createdKey = some (isoNow 0) ∧
      fields.lookup originalDiskKey = none ∧
      fields.lookup vmNameKey = none) :=
  ⟨C9_amended_metadata_fields.1 w6sys ("vm") ("new") ("d") w6dom (DISK_DIR ++ ["vm.qcow2"])
     (.diskBytes ("A")) (by decide) (by decide) (by decide) (by decide),
   C9_amended_metadata_fields.2 w6sys (switch_checkpoint w6sys ("vm") ("cp") true true).2
     "vm" "cp" true true w6dom (DISK_DIR ++ ["vm.qcow2"]) (.diskBytes ("A"))
     (by decide) (by decide) (by decide) (by decide) (by decide) (by decide)⟩

/-! ### C8 -/

def c8dom : Domain :=
  { persistentDisk := some (DISK_DIR ++ ["p.qcow2"]),
    liveDisk := some (DISK_DIR ++ ["l.qcow2"]), running := true }

def c8sys : Sys :=
  { fs := [(DISK_DIR ++ ["p.qcow2"], .diskBytes ("P")),
           (DISK_DIR ++ ["l.qcow2"], .diskBytes ("L"))],
    dirs := [DISK_DIR], doms := [("vm", c8dom)], now := 0 }

/-- C8 counterexample: on a running VM whose live and persistent disk
paths differ, `create_checkpoint` copies the live disk's content, not the
content of the disk named by the persistent configuration — it calls
`XMLDesc()` without `VIR_DOMAIN_XML_INACTIVE`, unlike `list_checkpoints`
and `switch_checkpoint`. -/
theorem C8_counterexample_create_reads_live_disk :
    c8dom.running = true ∧
    c8dom.persistentDisk = some (DISK_DIR ++ ["p.qcow2"]) ∧
    c8dom.liveDisk = some (DISK_DIR ++ ["l.qcow2"]) ∧
    fsLookup c8sys.fs (DISK_DIR ++ ["p.qcow2"]) = some (.diskBytes ("P")) ∧
    (create_checkpoint c8sys ("vm") ("cp") ("d") true).1 = true ∧
    fsLookup (create_checkpoint c8sys ("vm") ("cp") ("d") true).2.fs
      (checkpointDirOf ("vm") ++ ["cp" ++ qcow2Ext]) = some (.diskBytes ("L")) := by
  decide

/-- C8 amended: `list_checkpoints` and `switch_checkpoint` read the disk
path from the INACTIVE (persistent) view, but `create_checkpoint` reads it
from the default `XMLDesc()` view, which for a running domain is the live
configuration: the disk it copies is the live one. -/
theorem C8_amended_create_uses_default_view :
    (∀ domain : Domain, xmlDescDisk domain true = domain.persistentDisk) ∧
    (∀ domain : Domain, domain.running = true → xmlDescDisk domain false = domain.liveDisk) ∧
    (∀ (s : Sys) (vmName checkpointName description : String) (domain : Domain)
      (liveDisk : FilePath) (content : FileData),
      domLookup s.doms vmName = some domain →
      domain.running = true →
      domain.liveDisk = some liveDisk →
      fsLookup s.fs liveDisk = some content →
      fsExists s.fs (checkpointDirOf vmName ++ [checkpointName ++ qcow2Ext]) = false →
      (create_checkpoint s vmName checkpointName description true).1 = true ∧
      fsLookup (create_checkpoint s vmName checkpointName description true).2.fs
        (checkpointDirOf vmName ++ [checkpointName ++ qcow2Ext]) = some content) := by
  refine ⟨fun domain => rfl, fun domain h => by simp [xmlDescDisk, h], ?_⟩
  intro s vmName checkpointName description domain liveDisk content hdom hrunning hlive hcur hnocol
  have hdisk : xmlDescDisk domain false = some liveDisk := by
    simp [xmlDescDisk, hrunning, hlive]
  rw [create_checkpoint_eq_of_nocollision s vmName checkpointName description true domain
    liveDisk content hdom hdisk hcur hnocol]
  simp only [if_true, eq_self_iff_true]
  refine ⟨trivial, ?_⟩
  rw [fsLookup_fsWrite_ne _ _ _ _ (diskPath_ne_metaPath _ _ _), fsLookup_fsWrite_self]

/-- Witness for the amended C8 at a concrete state. -/
theorem C8_amended_create_uses_default_view_witness :
    xmlDescDisk c8dom true = c8dom.persistentDisk ∧
    xmlDescDisk c8dom false = c8dom.liveDisk ∧
    (create_checkpoint c8sys ("vm") ("cp") ("d") true).1 = true ∧
    fsLookup (create_checkpoint c8sys ("vm") ("cp") ("d") true).2.fs
      (checkpointDirOf ("vm") ++ ["cp" ++ qcow2Ext]) = some (.diskBytes ("L")) :=
  ⟨C8_amended_create_uses_default_view.1 c8dom,
   C8_amended_create_uses_default_view.2.1 c8dom (by decide),
   C8_amended_create_uses_default_view.2.2 c8sys ("vm") ("cp") ("d") c8dom
     (DISK_DIR ++ ["l.qcow2"]) (.diskBytes ("L"))
     (by decide) (by decide) (by decide) (by decide) (by decide)⟩

/-! ### C3 -/

def c3dom : Domain :=
  { persistentDisk := some (DISK_DIR ++ ["vm.qcow2"]), liveDisk := none, running := false }

def c3sys : Sys :=
  { fs := [(DISK_DIR ++ ["vm.qcow2"], .diskBytes ("A")),
           (checkpointDirOf ("vm") ++ ["cp.qcow2"], .diskBytes ("B")),
           (checkpointDirOf ("vm") ++ ["cp.json"],
            .metaJson [("name", "cp"), ("created", "T1")])],
    dirs := [DISK_DIR, checkpointDirOf ("vm")], doms := [("vm", c3dom)], now := 0 }

/-- C3: at a concrete state with checkpoint `cp` listed, a promotion whose
`defineXML` returns `None` restores the checkpoint disk file but has
already deleted the metadata file without restoring it, so the checkpoint
is no longer reported by `list_checkpoints`; and when `defineXML` raises
instead, not even the disk file is restored.  This contradicts the claim
(and spec P7), under which the checkpoint must still be listed after a
failed promotion. -/
theorem C3_rollback_loses_checkpoint :
    ((list_checkpoints c3sys ("vm")).map Prod.fst).contains ("cp") = true ∧
    (separate_checkpoint_to_vm c3sys ("cp") ("newvm") ("vm") .retNone).1 = false ∧
    fsLookup (separate_checkpoint_to_vm c3sys ("cp") ("newvm") ("vm") .retNone).2.fs
      (checkpointDirOf ("vm") ++ ["cp" ++ qcow2Ext]) = some (.diskBytes ("B")) ∧
    fsLookup (separate_checkpoint_to_vm c3sys ("cp") ("newvm") ("vm") .retNone).2.fs
      (checkpointDirOf ("vm") ++ ["cp" ++ jsonExt]) = none ∧
    ((list_checkpoints (separate_checkpoint_to_vm c3sys ("cp") ("newvm") ("vm") .retNone).2
      "vm").map Prod.fst).contains ("cp") = false ∧
    (separate_checkpoint_to_vm c3sys ("cp") ("newvm") ("vm") .raised).1 = false ∧
    fsLookup (separate_checkpoint_to_vm c3sys ("cp") ("newvm") ("vm") .raised).2.fs
      (checkpointDirOf ("vm") ++ ["cp" ++ qcow2Ext]) = none ∧
    fsExists (separate_checkpoint_to_vm c3sys ("cp") ("newvm") ("vm") .raised).2.fs
      (DISK_DIR ++ ["newvm" ++ qcow2Ext]) = true := by
  decide

/-! ### C4: sequences of create/switch operations -/

/-- One checkpoint operation of the kind C4 quantifies over, carrying the
I/O outcomes of its fallible calls. -/
inductive CkptOp where
  | create (checkpointName description : String) (copyOk : Bool)
  | switch (checkpointName : String) (copyOk defineOk : Bool)
deriving DecidableEq, Repr

def applyCkptOp (vmName : String) (s : Sys) : CkptOp → Sys
  | .create checkpointName description copyOk =>
    (create_checkpoint s vmName checkpointName description copyOk).2
  | .switch checkpointName copyOk defineOk =>
    (switch_checkpoint s vmName checkpointName copyOk defineOk).2

def runCkptOps (vmName : String) : Sys → List CkptOp → Sys
  | s, [] => s
  | s, op :: ops => runCkptOps vmName (applyCkptOp vmName s op) ops

/-- A file is name-consistent when, if it is a parsed `*.json` metadata
file inside the checkpoint directory, its effective name (`name` field,
stem as default) equals its own stem.  Both metadata writers of the
subsystem produce exactly such files. -/
def entryNameConsistent (checkpointDir : FilePath) (pd : FilePath × FileData) : Bool :=
  match pathJsonStem checkpointDir pd.1, pd.2 with
  | some st, .metaJson fields => ((fields.lookup nameKey).getD st) == st
  | _, _ => true

/-- Well-formedness of the filesystem for a VM's checkpoint directory:
pairwise-distinct paths and name-consistent metadata files.  It holds for
any state whose checkpoint directory was populated by the subsystem itself
(in particular for an empty or absent directory). -/
def WfFs (vmName : String) (fs : Fs) : Prop :=
  (fs.map Prod.fst).Nodup ∧
  ∀ pd ∈ fs, entryNameConsistent (checkpointDirOf vmName) pd = true

instance (vmName : String) (fs : Fs) : Decidable (WfFs vmName fs) :=
  inferInstanceAs (Decidable ((fs.map Prod.fst).Nodup ∧
    ∀ pd ∈ fs, entryNameConsistent (checkpointDirOf vmName) pd = true))

theorem entryNameConsistent_of_stem_none (checkpointDir : FilePath) (p : FilePath)
    (d : FileData) (h : pathJsonStem checkpointDir p = none) :
    entryNameConsistent checkpointDir (p, d) = true := by
  unfold entryNameConsistent
  rw [h]

theorem entryNameConsistent_qcow2 (checkpointDir : FilePath) (a : String) (d : FileData) :
    entryNameConsistent checkpointDir (checkpointDir ++ [a ++ qcow2Ext], d) = true :=
  entryNameConsistent_of_stem_none _ _ _
    (by rw [pathJsonStem_concat, jsonStemOfName_qcow2])

theorem entryNameConsistent_meta_self (checkpointDir : FilePath) (a : String)
    (rest : List (String × String)) :
    entryNameConsistent checkpointDir
      (checkpointDir ++ [a ++ jsonExt], .metaJson ((nameKey, a) :: rest)) = true := by
  unfold entryNameConsistent
  rw [pathJsonStem_concat, jsonStemOfName_append]
  simp [List.lookup]

theorem wfFs_fsWrite (vmName : String) (fs : Fs) (p : FilePath) (d : FileData)
    (h : WfFs vmName fs)
    (hd : entryNameConsistent (checkpointDirOf vmName) (p, d) = true) :
    WfFs vmName (fsWrite fs p d) := by
  refine ⟨nodup_map_fst_fsWrite _ _ _ h.1, fun pd hm => ?_⟩
  rcases mem_fsWrite _ _ _ _ hm with h1 | h1
  · rw [h1]
    exact hd
  · exact h.2 pd h1

/-- The filesystems `create_checkpoint` can leave behind: untouched, a
truncated copy destination, or the copied disk plus its metadata. -/
theorem create_checkpoint_fs_cases (s : Sys) (vmName checkpointName description : String)
    (copyOk : Bool) :
    (create_checkpoint s vmName checkpointName description copyOk).2.fs = s.fs ∨
    (create_checkpoint s vmName checkpointName description copyOk).2.fs =
      fsWrite s.fs (checkpointDirOf vmName ++ [checkpointName ++ qcow2Ext]) (.diskBytes ("")) ∨
    ∃ content diskPath,
      (create_checkpoint s vmName checkpointName description copyOk).2.fs =
        fsWrite
          (fsWrite s.fs (checkpointDirOf vmName ++ [checkpointName ++ qcow2Ext]) content)
          (checkpointDirOf vmName ++ [checkpointName ++ jsonExt])
          (.metaJson
            [(nameKey, checkpointName), (descriptionKey, description),
             (createdKey, isoNow s.now), (originalDiskKey, pathStr diskPath),
             (vmNameKey, vmName)]) := by
  unfold create_checkpoint
  dsimp only
  repeat' split
  all_goals first
    | (left; rfl)
    | (right; left; rfl)
    | (right; right; exact ⟨_, _, rfl⟩)

theorem switchFinish_fs (s2 : Sys) (domain : Domain) (vmName : String)
    (targetDisk : FilePath) (defineOk : Bool) :
    (switchFinish s2 domain vmName targetDisk defineOk).2.fs = s2.fs := by
  unfold switchFinish
  split
  · rfl
  · rfl

/-- The filesystems `switch_checkpoint` can leave behind: untouched, a
truncated auto-preserve destination, or the auto-preserved disk plus its
metadata. -/
theorem switch_checkpoint_fs_cases (s : Sys) (vmName checkpointName : String)
    (copyOk defineOk : Bool) :
    (switch_checkpoint s vmName checkpointName copyOk defineOk).2.fs = s.fs ∨
    (switch_checkpoint s vmName checkpointName copyOk defineOk).2.fs =
      fsWrite s.fs (checkpointDirOf vmName ++ [autoCheckpointName s.now ++ qcow2Ext])
        (.diskBytes ("")) ∨
    ∃ content,
      (switch_checkpoint s vmName checkpointName copyOk defineOk).2.fs =
        fsWrite
          (fsWrite s.fs (checkpointDirOf vmName ++ [autoCheckpointName s.now ++ qcow2Ext])
            content)
          (checkpointDirOf vmName ++ [autoCheckpointName s.now ++ jsonExt])
          (.metaJson
            [(nameKey, autoCheckpointName s.now),
             (descriptionKey, "Auto-saved before switch"),
             (createdKey, isoNow s.now)]) := by
  unfold switch_checkpoint
  dsimp only
  repeat' split
  all_goals first
    | (left; rfl)
    | (left; exact (switchFinish_fs _ _ _ _ _).trans rfl)
    | (right; left; rfl)
    | (right; right; exact ⟨_, rfl⟩)
    | (right; right; exact ⟨_, (switchFinish_fs _ _ _ _ _).trans rfl⟩)

theorem wfFs_applyCkptOp (vmName : String) (s : Sys) (op : CkptOp)
    (h : WfFs vmName s.fs) : WfFs vmName (applyCkptOp vmName s op).fs := by
  cases op with
  | create checkpointName description copyOk =>
    rcases create_checkpoint_fs_cases s vmName checkpointName description copyOk with
      hc | hc | ⟨content, diskPath, hc⟩
    · rw [applyCkptOp, hc]
      exact h
    · rw [applyCkptOp, hc]
      exact wfFs_fsWrite _ _ _ _ h (entryNameConsistent_qcow2 _ _ _)
    · rw [applyCkptOp, hc]
      exact wfFs_fsWrite _ _ _ _
        (wfFs_fsWrite _ _ _ _ h (entryNameConsistent_qcow2 _ _ _))
        (entryNameConsistent_meta_self _ _ _)
  | switch checkpointName copyOk defineOk =>
    rcases switch_checkpoint_fs_cases s vmName checkpointName copyOk defineOk with
      hc | hc | ⟨content, hc⟩
    · rw [applyCkptOp, hc]
      exact h
    · rw [applyCkptOp, hc]
      exact wfFs_fsWrite _ _ _ _ h (entryNameConsistent_qcow2 _ _ _)
    · rw [applyCkptOp, hc]
      exact wfFs_fsWrite _ _ _ _
        (wfFs_fsWrite _ _ _ _ h (entryNameConsistent_qcow2 _ _ _))
        (entryNameConsistent_meta_self _ _ _)

theorem wfFs_runCkptOps (vmName : String) (s : Sys) (ops : List CkptOp)
    (h : WfFs vmName s.fs) : WfFs vmName (runCkptOps vmName s ops).fs := by
  induction ops generalizing s with
  | nil => exact h
  | cons op ops ih => exact ih _ (wfFs_applyCkptOp vmName s op h)

/-- The listing row produced from one filesystem entry: the composition of
the `*.json` glob filter and the metadata parse/row construction. -/
def listEntryOfFile (currentDisk : Option FilePath) (checkpointDir : FilePath)
    (pd : FilePath × FileData) : Option (String × String × Bool) :=
  match pathJsonStem checkpointDir pd.1 with
  | some stem => listEntryOf currentDisk checkpointDir stem pd.2
  | none => none

theorem globJson_filterMap_eq (fs : Fs) (checkpointDir : FilePath)
    (currentDisk : Option FilePath) :
    (globJsonEntries fs checkpointDir).filterMap
      (fun sd => listEntryOf currentDisk checkpointDir sd.1 sd.2) =
    fs.filterMap (listEntryOfFile currentDisk checkpointDir) := by
  rw [globJsonEntries, List.filterMap_filterMap]
  apply List.filterMap_congr
  intro pd _
  cases hst : pathJsonStem checkpointDir pd.1 with
  | none => simp [listEntryOfFile, hst]
  | some stem => simp [listEntryOfFile, hst]

/-- An active listing row pins down both its source file's path and the
current disk: under name-consistency the row's name is the file's stem, so
the metadata path is `{name}.json` and the current disk is the derived
`{name}.qcow2`. -/
theorem active_entry_spec (currentDisk : Option FilePath) (checkpointDir : FilePath)
    (pd : FilePath × FileData) (e : String × String × Bool)
    (hcons : entryNameConsistent checkpointDir pd = true)
    (hg : listEntryOfFile currentDisk checkpointDir pd = some e)
    (hact : e.2.2 = true) :
    pd.1 = checkpointDir ++ [e.1 ++ jsonExt] ∧
    currentDisk = some (checkpointDir ++ [e.1 ++ qcow2Ext]) := by
  obtain ⟨p, d⟩ := pd
  cases hpds : pathJsonStem checkpointDir p with
  | none => simp [listEntryOfFile, hpds] at hg
  | some st =>
    simp only [listEntryOfFile, hpds] at hg
    cases d with
    | diskBytes content => simp [listEntryOf] at hg
    | metaJson fields =>
      simp only [listEntryOf] at hg
      replace hg := Option.some.inj hg
      simp only [entryNameConsistent, hpds] at hcons
      have hname : (fields.lookup nameKey).getD st = st := by
        exact eq_of_beq hcons
      rw [← hg] at hact
      simp only at hact
      have hcur : currentDisk =
          some (checkpointDir ++ [((fields.lookup nameKey).getD st) ++ qcow2Ext]) :=
        of_decide_eq_true hact
      have he1 : e.1 = (fields.lookup nameKey).getD st := by
        rw [← hg]
      constructor
      · rw [pathJsonStem_eq_some checkpointDir p st hpds, he1, hname]
      · rw [he1, hcur]

theorem countP_active_filterMap_le_one (currentDisk : Option FilePath)
    (checkpointDir : FilePath) (fs : Fs)
    (hnd : (fs.map Prod.fst).Nodup)
    (hcons : ∀ pd ∈ fs, entryNameConsistent checkpointDir pd = true) :
    ((fs.filterMap (listEntryOfFile currentDisk checkpointDir)).countP
      (fun e => e.2.2)) ≤ 1 := by
  induction fs with
  | nil => simp
  | cons pd fs ih =>
    rw [List.map_cons, List.nodup_cons] at hnd
    obtain ⟨hpdn, hnd'⟩ := hnd
    have hcons' : ∀ q ∈ fs, entryNameConsistent checkpointDir q = true :=
      fun q hq => hcons q (List.mem_cons_of_mem _ hq)
    rw [List.filterMap_cons]
    cases hg : listEntryOfFile currentDisk checkpointDir pd with
    | none => exact ih hnd' hcons'
    | some e =>
      rw [List.countP_cons]
      by_cases hact : e.2.2 = true
      · have hzero : ((fs.filterMap (listEntryOfFile currentDisk checkpointDir)).countP
            (fun x => x.2.2)) = 0 := by
          rw [List.countP_eq_zero]
          intro e' he' hact'
          rcases List.mem_filterMap.mp he' with ⟨pd', hpd', hg'⟩
          obtain ⟨hp1, hc1⟩ := active_entry_spec currentDisk checkpointDir pd e
            (hcons pd (List.mem_cons_self _ _)) hg hact
          obtain ⟨hp2, hc2⟩ := active_entry_spec currentDisk checkpointDir pd' e'
            (hcons' pd' hpd') hg' hact'
          have hdisks : checkpointDir ++ [e.1 ++ qcow2Ext] =
              checkpointDir ++ [e'.1 ++ qcow2Ext] :=
            Option.some.inj (hc1.symm.trans hc2)
          have hname : e.1 = e'.1 :=
            qcow2_append_inj _ _ (List.singleton_inj.mp (List.append_cancel_left hdisks))
          apply hpdn
          rw [hp1, hname, ← hp2]
          exact List.mem_map_of_mem Prod.fst hpd'
        rw [hzero, if_pos hact]
      · rw [if_neg hact]
        simpa using ih hnd' hcons'

/-- With a well-formed filesystem, `list_checkpoints` reports at most one
active row. -/
theorem list_checkpoints_at_most_one_active (s : Sys) (vmName : String)
    (h : WfFs vmName s.fs) :
    ((list_checkpoints s vmName).countP (fun e => e.2.2)) ≤ 1 := by
  unfold list_checkpoints
  cases hdom : domLookup s.doms vmName with
  | none => simp [hdom]
  | some domain =>
    simp only [hdom]
    by_cases hdir : dirExists s (checkpointDirOf vmName) = true
    · simp only [hdir, not_true, if_false]
      rw [(List.perm_insertionSort _ _).countP_eq, globJson_filterMap_eq]
      exact countP_active_filterMap_le_one _ _ _ h.1 h.2
    · rw [Bool.not_eq_true] at hdir
      simp [hdir]

/-- C4: starting from any state whose filesystem is well-formed (as every
state populated only by this subsystem is), after an arbitrary sequence of
`create_checkpoint` / `switch_checkpoint` operations on a VM, the listing
contains at most one row with `is_active` set. -/
theorem C4_at_most_one_active (vmName : String) (s : Sys) (ops : List CkptOp)
    (h : WfFs vmName s.fs) :
    ((list_checkpoints (runCkptOps vmName s ops) vmName).countP (fun e => e.2.2)) ≤ 1 :=
  list_checkpoints_at_most_one_active _ _ (wfFs_runCkptOps vmName s ops h)

def w4sys : Sys :=
  { fs := [(DISK_DIR ++ ["vm.qcow2"], .diskBytes ("A"))],
    dirs := [DISK_DIR], doms := [("vm", w10dom)], now := 0 }

/-- Witness for C4 at a concrete state and operation sequence. -/
theorem C4_at_most_one_active_witness :
    WfFs ("vm") w4sys.fs ∧
    ((list_checkpoints
      (runCkptOps ("vm") w4sys
        [.create ("snap1") ("d") true, .switch ("snap1") true true,
         .switch ("snap1") true true, .create ("snap2") ("e") false]) ("vm")).countP
      (fun e => e.2.2)) ≤ 1 :=
  ⟨by decide,
   C4_at_most_one_active ("vm") w4sys
     [.create ("snap1") ("d") true, .switch ("snap1") true true,
      .switch ("snap1") true true, .create ("snap2") ("e") false] (by decide)⟩

end VmTUI
